import Mathlib

/-!
Verification of the `saint` terminal-UI toolkit of the `ghd` repository.

Python integers are modelled as `Int`; Python floor-division `//` as
`Int.fdiv`; fallible code returns `Option`/`Except`.
-/

namespace Saint

/-! ## Flex layout (src/docker/saint/widget.py) -/

/-- Python `itertools.accumulate` with a running accumulator:
`accumulate 0 [a, b, c] = [a, a+b, a+b+c]`. -/
def accumulate (acc : Int) : List Int → List Int
  | [] => []
  | x :: xs => (acc + x) :: accumulate (acc + x) xs

/-- `Widget._flex_offsets`: `[]` when there are no children, otherwise
`[0] + accumulate(flexes)` mapped through `flex * size // flexes[-1]`
(floor division, like Python `//`). -/
def flexOffsets (flexes : List Int) (size : Int) : List Int :=
  if flexes = [] then []
  else (0 :: accumulate 0 flexes).map
    (fun f => Int.fdiv (f * size) ((0 :: accumulate 0 flexes).getLastD 0))

/-- The child extents along the layout axis assigned by `Widget.on_resize`:
`size_i = offsets[i+1] - offsets[i]`. -/
def childExtents (flexes : List Int) (size : Int) : List Int :=
  let offs := flexOffsets flexes size
  List.zipWith (fun a b => a - b) offs.tail offs

theorem accumulate_getLastD (l : List Int) :
    ∀ acc : Int, (accumulate acc l).getLastD acc = acc + l.sum := by
  induction l with
  | nil => intro acc; simp [accumulate]
  | cons x xs ih =>
    intro acc
    simp only [accumulate, List.getLastD_cons, ih (acc + x), List.sum_cons]
    ring

theorem getLastD_map (g : Int → Int) (l : List Int) :
    ∀ a : Int, (l.map g).getLastD (g a) = g (l.getLastD a) := by
  induction l with
  | nil => intro a; simp
  | cons x xs ih => intro a; simp only [List.map_cons, List.getLastD_cons, ih x]

theorem telescope (l : List Int) :
    ∀ a : Int, (List.zipWith (fun x y => x - y) l (a :: l)).sum = l.getLastD a - a := by
  induction l with
  | nil => intro a; simp
  | cons b l' ih =>
    intro a
    simp only [List.zipWith, List.sum_cons, ih b, List.getLastD_cons]
    ring

/-- C1: for every non-empty sequence of positive child flex weights and every
parent extent, the child extents computed by `Widget.on_resize` along the
layout axis (differences of the cumulative-sum offsets
`offset_i = cumFlex_i * size // totalFlex`) sum exactly to the parent's
extent: no gaps and no overflow. -/
theorem flex_extents_sum_eq_size (flexes : List Int) (size : Int)
    (hne : flexes ≠ []) (hpos : ∀ f ∈ flexes, 0 < f) :
    (childExtents flexes size).sum = size := by
  have hsumpos : 0 < flexes.sum := List.sum_pos flexes hpos hne
  have htot : ((0 : Int) :: accumulate 0 flexes).getLastD 0 = flexes.sum := by
    rw [List.getLastD_cons, accumulate_getLastD]
    ring
  unfold childExtents flexOffsets
  rw [if_neg hne]
  set g : Int → Int :=
    fun f => Int.fdiv (f * size) (((0 : Int) :: accumulate 0 flexes).getLastD 0) with hg
  have hg0 : g 0 = 0 := by
    rw [hg]
    simp only [zero_mul, Int.zero_fdiv]
  simp only [List.map_cons, List.tail_cons]
  rw [← hg0, telescope, getLastD_map, accumulate_getLastD, hg0]
  simp only [hg, zero_add, htot, zero_mul, Int.zero_fdiv, sub_zero]
  exact Int.mul_fdiv_cancel_left size (ne_of_gt hsumpos)

/-- Witness for C1 at flexes `[1, 2, 3]` and size `10`. -/
theorem flex_extents_sum_eq_size_witness :
    (([1, 2, 3] : List Int) ≠ [] ∧ ∀ f ∈ ([1, 2, 3] : List Int), 0 < f) ∧
      (childExtents [1, 2, 3] 10).sum = 10 :=
  ⟨⟨by decide, by decide⟩,
    flex_extents_sum_eq_size [1, 2, 3] 10 (by decide) (by decide)⟩

/-! ## Table (src/docker/saint/table.py)

The index arithmetic of `Table` only depends on the row list, the selected
index, the view offset, the inherited `Widget.focus_index` and the widget
height (`size_y`); rows themselves are opaque. -/

structure TableState (α : Type) where
  data : List α
  selectedIndex : Int
  viewOffset : Int
  focusIndex : Int
  sizeY : Int
  deriving DecidableEq, Repr

/-- `Widget.height` property: returns `size_y`. -/
def TableState.height {α : Type} (st : TableState α) : Int := st.sizeY

/-- A freshly constructed root `Table` after a resize to height `h`:
`_data = ()`, `_selected_index = 0`, `_view_offset = 0`, `focus_index = 0`. -/
def initTable (h : Int) : TableState Int := ⟨[], 0, 0, 0, h⟩

/-- `Table.set_selected_index` (table.py lines 78-87): clamp the requested
index into `[0, len(data) - 1]`, then scroll so the selected row lies in the
visible window of `height - 1` lines (one line is the header). -/
def setSelectedIndex {α : Type} (st : TableState α) (index : Int) : TableState α :=
  let sel := max 0 (min index ((st.data.length : Int) - 1))
  let rowOnScreen := sel - st.viewOffset
  let visibleLines := st.height - 1
  if rowOnScreen ≥ visibleLines then
    { st with selectedIndex := sel, viewOffset := max 0 (sel - (visibleLines - 1)) }
  else if rowOnScreen < 0 then
    { st with selectedIndex := sel, viewOffset := sel }
  else
    { st with selectedIndex := sel }

/-- Python sequence indexing `data[i]`: negative indices count from the end,
out-of-range access raises `IndexError` (modelled as `none`). -/
def pyIndex {α : Type} (data : List α) (i : Int) : Option α :=
  if 0 ≤ i then data.get? i.toNat
  else if -(data.length : Int) ≤ i then data.get? (data.length - (-i).toNat)
  else none

/-- `Table.selected_data`: `self._data[self.selected_index]`, with
`IndexError` caught and turned into `None`. -/
def selectedData {α : Type} (st : TableState α) : Option α :=
  pyIndex st.data st.selectedIndex

/-- `Table.data` setter (table.py lines 93-98): replace the rows, then clamp
`focus_index` — the child-widget focus index inherited from `Widget` — against
the number of rows; `_selected_index` is not touched. -/
def dataSetter {α : Type} (st : TableState α) (rows : List α) : TableState α :=
  { st with
    data := rows
    focusIndex := if st.focusIndex ≥ (rows.length : Int)
      then (rows.length : Int) - 1 else st.focusIndex }

/-- `Table.on_resize` (table.py lines 139-144): the `Widget` geometry update
sets `size_y` to the new height (a root table takes the argument as-is), then
the view offset is re-clamped against the full widget height. -/
def tableOnResize {α : Type} (st : TableState α) (newHeight : Int) : TableState α :=
  let st1 := { st with sizeY := newHeight }
  if st1.selectedIndex - st1.viewOffset < 0 then
    { st1 with viewOffset := st1.selectedIndex }
  else if st1.selectedIndex - st1.viewOffset ≥ st1.height then
    { st1 with viewOffset := st1.selectedIndex - st1.height }
  else st1

/-- C2: with a non-empty row set and visible height `height - 1 ≥ 1`, a
`set_selected_index` call from an arbitrary prior state re-establishes
`viewOffset ≤ selectedIndex < viewOffset + visibleHeight` and
`0 ≤ selectedIndex < len(rows)` — hence the invariant holds after every
sequence of such calls; on an empty row set `selected_data` is `None`. -/
theorem set_selected_index_invariant :
    (∀ (st : TableState Int) (index : Int),
      1 ≤ (st.data.length : Int) → 2 ≤ st.sizeY →
      (setSelectedIndex st index).viewOffset ≤ (setSelectedIndex st index).selectedIndex ∧
      (setSelectedIndex st index).selectedIndex
        < (setSelectedIndex st index).viewOffset + (st.sizeY - 1) ∧
      0 ≤ (setSelectedIndex st index).selectedIndex ∧
      (setSelectedIndex st index).selectedIndex < (st.data.length : Int)) ∧
    (∀ st : TableState Int, st.data = [] → selectedData st = none) := by
  constructor
  · intro st index h1 h2
    obtain ⟨data, sel, view, focus, sy⟩ := st
    simp only [setSelectedIndex, TableState.height] at *
    split_ifs <;> simp_all <;> omega
  · intro st hdata
    obtain ⟨data, sel, view, focus, sy⟩ := st
    simp only at hdata
    subst hdata
    simp only [selectedData, pyIndex]
    split_ifs <;> simp

/-- Witness for C2 at a 3-row table of height 4 and the call
`set_selected_index 7`, plus the empty-table case. -/
theorem set_selected_index_invariant_witness :
    ((1 : Int) ≤ ((3 : Nat) : Int) ∧ (2 : Int) ≤ 4) ∧
      ((setSelectedIndex ⟨[5, 6, 7], 0, 0, 0, 4⟩ 7).viewOffset ≤
          (setSelectedIndex ⟨[5, 6, 7], 0, 0, 0, 4⟩ 7).selectedIndex ∧
        (setSelectedIndex (⟨[5, 6, 7], 0, 0, 0, 4⟩ : TableState Int) 7).selectedIndex
          < (setSelectedIndex ⟨[5, 6, 7], 0, 0, 0, 4⟩ 7).viewOffset + (4 - 1) ∧
        0 ≤ (setSelectedIndex (⟨[5, 6, 7], 0, 0, 0, 4⟩ : TableState Int) 7).selectedIndex ∧
        (setSelectedIndex (⟨[5, 6, 7], 0, 0, 0, 4⟩ : TableState Int) 7).selectedIndex
          < ((3 : Nat) : Int)) ∧
      selectedData (⟨[], 0, 0, 0, 4⟩ : TableState Int) = none :=
  ⟨⟨by decide, by decide⟩,
    set_selected_index_invariant.1 ⟨[5, 6, 7], 0, 0, 0, 4⟩ 7 (by decide) (by decide),
    set_selected_index_invariant.2 ⟨[], 0, 0, 0, 4⟩ rfl⟩

/-- C3 (code bug): replacing the rows of a 3-row table whose selected index
is 2 (both states reached by real operations from a fresh table) with a
single row leaves `_selected_index` at 2, exceeding `len(rows) - 1 = 0`; the
setter clamps `focus_index` — an index into child *widgets* — against the row
count instead of clamping `_selected_index`. -/
theorem data_setter_leaves_selected_index_stale :
    (setSelectedIndex (dataSetter (initTable 5) [10, 20, 30]) 2
      = ⟨[10, 20, 30], 2, 0, 0, 5⟩) ∧
    (dataSetter (setSelectedIndex (dataSetter (initTable 5) [10, 20, 30]) 2) [10]).selectedIndex
      = 2 ∧
    (dataSetter (setSelectedIndex (dataSetter (initTable 5) [10, 20, 30]) 2) [10]).data.length
      = 1 ∧
    ¬ (dataSetter (setSelectedIndex (dataSetter (initTable 5) [10, 20, 30]) 2) [10]).selectedIndex
      ≤ ((1 : Nat) : Int) - 1 := by
  refine ⟨by decide, by decide, by decide, by decide⟩

/-- C6 (code bug): a 20-row table of height 5 with selected index 10 and view
offset 7 (reached by real operations) is resized to height 3; `on_resize`
sets the view offset to `10 - 3 = 7`, leaving `selectedIndex - viewOffset =
3`, which is not `< height - 1 = 2` (nor even `< height`): the selected row
is below the visible window, and the clamp does not even re-establish its own
guard `selectedIndex - viewOffset < height`. -/
theorem table_resize_clamp_leaves_selection_invisible :
    (setSelectedIndex (dataSetter (initTable 5) ((List.range 20).map Int.ofNat)) 10).selectedIndex
      = 10 ∧
    (setSelectedIndex (dataSetter (initTable 5) ((List.range 20).map Int.ofNat)) 10).viewOffset
      = 7 ∧
    (tableOnResize
        (setSelectedIndex (dataSetter (initTable 5) ((List.range 20).map Int.ofNat)) 10)
        3).viewOffset = 7 ∧
    ¬ (tableOnResize
        (setSelectedIndex (dataSetter (initTable 5) ((List.range 20).map Int.ofNat)) 10)
        3).selectedIndex
      < (tableOnResize
          (setSelectedIndex (dataSetter (initTable 5) ((List.range 20).map Int.ofNat)) 10)
          3).viewOffset + (3 - 1) := by
  refine ⟨by decide, by decide, by decide, by decide⟩

/-! ## Widget tree resize (src/docker/saint/widget.py, `on_resize`) -/

/-- A widget tree node: flex weight, layout direction, ordered children. -/
inductive W where
  | node (flex : Int) (vert : Bool) (children : List W)
  deriving Repr

def W.flex : W → Int
  | .node f _ _ => f

def W.vert : W → Bool
  | .node _ v _ => v

def W.children : W → List W
  | .node _ _ cs => cs

structure Rect where
  ox : Int
  oy : Int
  sx : Int
  sy : Int
  deriving DecidableEq, Repr

/-- The widget tree annotated with the geometry `on_resize` assigned. -/
inductive RW where
  | node (rect : Rect) (children : List RW)
  deriving Repr

instance : Inhabited RW := ⟨.node ⟨0, 0, 0, 0⟩ []⟩

def RW.rect : RW → Rect
  | .node r _ => r

def RW.children : RW → List RW
  | .node _ cs => cs

/-- Rectangle containment: `child` lies entirely inside `parent`. -/
def Rect.inside (child parent : Rect) : Prop :=
  parent.ox ≤ child.ox ∧ parent.oy ≤ child.oy ∧
    child.ox + child.sx ≤ parent.ox + parent.sx ∧
    child.oy + child.sy ≤ parent.oy + parent.sy

instance (c p : Rect) : Decidable (Rect.inside c p) := by
  unfold Rect.inside
  infer_instance

/-- The size stored by `on_resize`: the argument, clamped to the parent's
remaining space `min(arg, parent_size - origin)` when there is a parent. -/
def clampSize (arg : Int) (p : Option Int) (origin : Int) : Int :=
  match p with
  | none => arg
  | some ps => min arg (ps - origin)

mutual

/-- `Widget.on_resize`: `pSize` is the parent's already-clamped size (`none`
for the root), `ox, oy` the origin the parent assigned before the call,
`width, height` the call arguments.  The size is clamped to the parent's
remaining space; child offsets are computed from the *arguments* (not the
clamped size), children's origins along the layout axis are the bare offsets,
and the recursive calls pass the argument extent of the other axis. -/
def resize : W → Option (Int × Int) → Int → Int → Int → Int → RW
  | .node _ v cs, pSize, ox, oy, width, height =>
    let sx := clampSize width (pSize.map Prod.fst) ox
    let sy := clampSize height (pSize.map Prod.snd) oy
    let offs := flexOffsets (cs.map W.flex) (if v then height else width)
    .node ⟨ox, oy, sx, sy⟩ (resizeChildren v (sx, sy) ox oy width height cs offs)

/-- The child loop of `on_resize`: walk children together with adjacent
offset pairs `offsets[i], offsets[i+1]`. -/
def resizeChildren (vert : Bool) (pSize : Int × Int) (ox oy width height : Int) :
    List W → List Int → List RW
  | [], _ => []
  | _ :: _, [] => []
  | _ :: _, [_] => []
  | c :: cs, o1 :: o2 :: rest =>
    (if vert then resize c (some pSize) ox o1 width (o2 - o1)
     else resize c (some pSize) o1 oy (o2 - o1) height)
      :: resizeChildren vert pSize ox oy width height cs (o2 :: rest)

end

theorem resize_eq (f : Int) (v : Bool) (cs : List W) (pSize : Option (Int × Int))
    (ox oy width height : Int) :
    resize (W.node f v cs) pSize ox oy width height =
      RW.node
        ⟨ox, oy, clampSize width (pSize.map Prod.fst) ox,
          clampSize height (pSize.map Prod.snd) oy⟩
        (resizeChildren v
          (clampSize width (pSize.map Prod.fst) ox,
            clampSize height (pSize.map Prod.snd) oy)
          ox oy width height cs
          (flexOffsets (cs.map W.flex) (if v then height else width))) := by
  rw [resize]

theorem resize_rect (c : W) (pSize : Option (Int × Int)) (ox oy width height : Int) :
    (resize c pSize ox oy width height).rect =
      ⟨ox, oy, clampSize width (pSize.map Prod.fst) ox,
        clampSize height (pSize.map Prod.snd) oy⟩ := by
  obtain ⟨f, v, cs⟩ := c
  rw [resize_eq]
  rfl

theorem accumulate_nonneg (l : List Int) :
    ∀ acc : Int, 0 ≤ acc → (∀ f ∈ l, 0 ≤ f) → ∀ x ∈ accumulate acc l, 0 ≤ x := by
  induction l with
  | nil => intro acc _ _ x hx; simp [accumulate] at hx
  | cons y ys ih =>
    intro acc hacc hl x hx
    have hy : 0 ≤ y := hl y (by simp)
    simp only [accumulate, List.mem_cons] at hx
    rcases hx with rfl | hx
    · omega
    · exact ih (acc + y) (by omega) (fun f hf => hl f (by simp [hf])) x hx

theorem flexOffsets_nonneg (flexes : List Int) (size : Int) (hs : 0 ≤ size)
    (hf : ∀ f ∈ flexes, 0 < f) : ∀ o ∈ flexOffsets flexes size, 0 ≤ o := by
  intro o ho
  unfold flexOffsets at ho
  split_ifs at ho with hne
  · simp at ho
  · simp only [List.map_cons, List.mem_cons, List.mem_map] at ho
    have htotnn : 0 ≤ ((0 : Int) :: accumulate 0 flexes).getLastD 0 := by
      rw [List.getLastD_cons, accumulate_getLastD]
      have : 0 ≤ flexes.sum := List.sum_nonneg (fun f hmem => le_of_lt (hf f hmem))
      omega
    rcases ho with rfl | ⟨x, hx, rfl⟩
    · rw [zero_mul, Int.zero_fdiv]
    · have hxnn : 0 ≤ x :=
        accumulate_nonneg flexes 0 le_rfl (fun f hmem => le_of_lt (hf f hmem)) x hx
      rw [Int.fdiv_eq_ediv _ htotnn]
      exact Int.ediv_nonneg (mul_nonneg hxnn hs) htotnn

theorem resizeChildren_mem (vert : Bool) (pSize : Int × Int) (ox oy width height : Int) :
    ∀ (cs : List W) (offs : List Int) (rc : RW),
      rc ∈ resizeChildren vert pSize ox oy width height cs offs →
      ∃ c o1 o2, o1 ∈ offs ∧
        rc = (if vert then resize c (some pSize) ox o1 width (o2 - o1)
              else resize c (some pSize) o1 oy (o2 - o1) height) := by
  intro cs
  induction cs with
  | nil => intro offs rc h; rw [resizeChildren] at h; simp at h
  | cons c cs ih =>
    intro offs rc h
    match offs with
    | [] => rw [resizeChildren] at h; simp at h
    | [o1] => rw [resizeChildren] at h; simp at h
    | o1 :: o2 :: rest =>
      rw [resizeChildren] at h
      simp only [List.mem_cons] at h
      rcases h with h | h
      · exact ⟨c, o1, o2, by simp, h⟩
      · obtain ⟨c', o1', o2', hmem, hrc⟩ := ih (o2 :: rest) rc h
        refine ⟨c', o1', o2', ?_, hrc⟩
        simp only [List.mem_cons] at hmem ⊢
        tauto

/-- C5 (amended): after any resize call, each direct child's rectangle lies
inside the widget's, provided the widget's origin along its own layout axis
is zero (as holds for the root), its origin along the other axis is
nonnegative, the resize arguments are nonnegative, and the children's flex
weights are positive.  In general the child origins along the layout axis
are absolute offsets from zero — ignoring the widget's own origin on that
axis — so containment fails for widgets whose origin along their layout axis
is nonzero (see the counterexample). -/
theorem resize_children_inside_parent (w : W) (pSize : Option (Int × Int))
    (ox oy width height : Int)
    (hvert : w.vert = true → oy = 0 ∧ 0 ≤ ox)
    (hhorz : w.vert = false → ox = 0 ∧ 0 ≤ oy)
    (hw : 0 ≤ width) (hh : 0 ≤ height)
    (hflex : ∀ c ∈ w.children, 0 < c.flex) :
    ∀ rc ∈ (resize w pSize ox oy width height).children,
      Rect.inside rc.rect (resize w pSize ox oy width height).rect := by
  obtain ⟨f, v, cs⟩ := w
  simp only [W.vert, W.children] at hvert hhorz hflex
  rw [resize_eq]
  intro rc hrc
  simp only [RW.children] at hrc
  obtain ⟨c, o1, o2, hmem, rfl⟩ := resizeChildren_mem _ _ _ _ _ _ _ _ _ hrc
  have ho1 : 0 ≤ o1 := by
    refine flexOffsets_nonneg (cs.map W.flex) (if v then height else width) ?_ ?_ o1 hmem
    · split_ifs <;> assumption
    · intro fl hfl
      simp only [List.mem_map] at hfl
      obtain ⟨c', hc', rfl⟩ := hfl
      exact hflex c' hc'
  cases v with
  | true =>
    obtain ⟨rfl, hox⟩ := hvert rfl
    rw [if_pos rfl, resize_rect]
    cases pSize with
    | none => simp [RW.rect, Rect.inside, clampSize]; omega
    | some p => simp [RW.rect, Rect.inside, clampSize]; omega
  | false =>
    obtain ⟨rfl, hoy⟩ := hhorz rfl
    rw [if_neg (by simp), resize_rect]
    cases pSize with
    | none => simp [RW.rect, Rect.inside, clampSize]; omega
    | some p => simp [RW.rect, Rect.inside, clampSize]; omega

/-- Witness for the amended C5 at the root widget of the counterexample
tree: the root's first direct child lies inside the root's rectangle. -/
theorem resize_children_inside_parent_witness :
    Rect.inside
      ((resize
          (W.node 1 false
            [W.node 1 false [], W.node 1 false [W.node 1 false [], W.node 1 false []]])
          none 0 0 10 4).children.getD 0 default).rect
      (resize
        (W.node 1 false
          [W.node 1 false [], W.node 1 false [W.node 1 false [], W.node 1 false []]])
        none 0 0 10 4).rect :=
  resize_children_inside_parent _ none 0 0 10 4
    (by intro h; simp [W.vert] at h) (fun _ => ⟨rfl, le_refl 0⟩)
    (by decide) (by decide)
    (by intro c hc; fin_cases hc <;> decide)
    _ (List.mem_cons_self _ _)

/-- C5 (counterexample): a horizontal root of width 10 with two flex-1
children; the second child `b` (placed at origin_x 5) is itself horizontal
with two flex-1 grandchildren.  `on_resize` assigns `b`'s first grandchild
origin_x 0 — the offsets are absolute from zero, ignoring `b`'s origin — so
the grandchild's rectangle `[0,2)×[0,4)` is not inside `b`'s `[5,10)×[0,4)`. -/
theorem nested_child_escapes_parent_rect :
    ((resize
        (W.node 1 false
          [W.node 1 false [], W.node 1 false [W.node 1 false [], W.node 1 false []]])
        none 0 0 10 4).children.getD 1 default).rect = ⟨5, 0, 5, 4⟩ ∧
    (((resize
        (W.node 1 false
          [W.node 1 false [], W.node 1 false [W.node 1 false [], W.node 1 false []]])
        none 0 0 10 4).children.getD 1 default).children.getD 0 default).rect
      = ⟨0, 0, 2, 4⟩ ∧
    ¬ Rect.inside
        (((resize
            (W.node 1 false
              [W.node 1 false [], W.node 1 false [W.node 1 false [], W.node 1 false []]])
            none 0 0 10 4).children.getD 1 default).children.getD 0 default).rect
        ((resize
            (W.node 1 false
              [W.node 1 false [], W.node 1 false [W.node 1 false [], W.node 1 false []]])
            none 0 0 10 4).children.getD 1 default).rect := by
  refine ⟨by decide, by decide, by decide⟩

/-! ## Signal (src/docker/saint/signal.py) -/

/-- A `_SignalBase` instance: Python object identity plus the registered
handler set.  Handlers (stored as weak method / object references) are
modelled by the identity of the referenced object. -/
structure SignalObj where
  id : Nat
  handlers : List Nat
  deriving DecidableEq, Repr

/-- `_SignalBase.connect`: stores a (weak) reference to the handler in the
handler set.  It performs no self-assignment check of any kind. -/
def connect (s : SignalObj) (f : Nat) : SignalObj :=
  if f ∈ s.handlers then s else { s with handlers := f :: s.handlers }

/-- `_SignalBase.__add__` (the `+=` operator): raises
`RuntimeError("Signal-self assignment detected")` when the handler *is* the
signal itself, otherwise delegates to `connect`. -/
def addOp (s : SignalObj) (f : Nat) : Except String SignalObj :=
  if f = s.id then Except.error "Signal-self assignment detected"
  else Except.ok (connect s f)

/-- `connect` as a fallible operation (it never actually fails), for
comparison with `__add__`. -/
def connectOp (s : SignalObj) (f : Nat) : Except String SignalObj :=
  Except.ok (connect s f)

/-- C8 (counterexample): registering a signal on itself through the
`connect` method does *not* fail — it silently stores a self-reference —
contradicting the claim that every way of registering a handler fails fast
on self-connection. -/
theorem connect_self_does_not_fail :
    connectOp ⟨0, []⟩ 0 = Except.ok ⟨0, [0]⟩ := rfl

/-- C8 (amended): self-connection fails fast only through the `+=` operator
(`__add__` raises `RuntimeError` when the handler is the signal itself, for
every `Signal`/`AsyncSignal` instance, both of which inherit it from
`_SignalBase`); the `connect` method performs no such check and silently
registers the signal on itself. -/
theorem add_self_fails_connect_self_does_not (s : SignalObj) :
    addOp s s.id = Except.error "Signal-self assignment detected" ∧
      connectOp s s.id = Except.ok (connect s s.id) := by
  simp [addOp, connectOp]

/-- Witness for the amended C8 at a concrete signal object. -/
theorem add_self_fails_connect_self_does_not_witness :
    addOp ⟨7, []⟩ 7 = Except.error "Signal-self assignment detected" ∧
      connectOp ⟨7, []⟩ 7 = Except.ok ⟨7, [7]⟩ :=
  add_self_fails_connect_self_does_not ⟨7, []⟩

/-! ## MessageBox (src/docker/saint/messagebox.py) -/

/-- The keys `MessageBox.__init__` registers handlers for. -/
inductive MbKey where
  | tab
  | btab
  | right
  | left
  | exitKey
  | qKey
  | enter
  deriving DecidableEq, Repr

structure MBState where
  choices : List (String × Bool)
  currentChoice : Int
  deriving DecidableEq, Repr

/-- `MessageBox.next_choice`: `(current + 1) % len(choices)` (Python `%`,
i.e. `Int.emod`, agrees with Python for a positive modulus). -/
def nextChoice (st : MBState) : MBState :=
  { st with currentChoice := (st.currentChoice + 1) % (st.choices.length : Int) }

/-- `MessageBox.prev_choice`: `(current + len(choices) - 1) % len(choices)`. -/
def prevChoice (st : MBState) : MBState :=
  { st with
    currentChoice :=
      (st.currentChoice + (st.choices.length : Int) - 1) % (st.choices.length : Int) }

/-- The `choice_index` setter: `min(max(0, value), len(choices) - 1)`. -/
def setChoiceIndex (st : MBState) (value : Int) : MBState :=
  { st with currentChoice := min (max 0 value) ((st.choices.length : Int) - 1) }

/-- `MessageBox.choice`: `self._choices[self._current_choice]`. -/
def mbChoice (st : MBState) : Option (String × Bool) :=
  pyIndex st.choices st.currentChoice

/-- An emission of `on_select` / `on_abort`: the signal is invoked with the
widget itself (and the keystroke), so the event carries the `MessageBox`
state, whose `choice` holds the chosen (label, value) pair. -/
inductive MBEvent where
  | selected (mb : MBState)
  | aborted (mb : MBState)
  deriving DecidableEq, Repr

/-- One key dispatched to the `MessageBox` through the signal-table
registrations made in `__init__`: tab/right run `next_choice`,
shift-tab/left run `prev_choice`, the exit key and `"q"` emit `on_abort`,
enter emits `on_select`. -/
def mbStep (st : MBState) (k : MbKey) : MBState × Option MBEvent :=
  match k with
  | .tab => (nextChoice st, none)
  | .right => (nextChoice st, none)
  | .btab => (prevChoice st, none)
  | .left => (prevChoice st, none)
  | .exitKey => (st, some (.aborted st))
  | .qKey => (st, some (.aborted st))
  | .enter => (st, some (.selected st))

/-- C9: a `MessageBox` with choices `[("Yes", true), ("No", false)]` and
`choice_index` set to 1: a left-arrow key moves the highlighted choice to
index 0 (emitting nothing), and a following enter key emits `on_select`
carrying the widget, whose current choice value is `true`. -/
theorem messagebox_left_then_enter_selects_yes :
    (mbStep (setChoiceIndex ⟨[("Yes", true), ("No", false)], 0⟩ 1) .left).1.currentChoice
      = 0 ∧
    (mbStep (setChoiceIndex ⟨[("Yes", true), ("No", false)], 0⟩ 1) .left).2 = none ∧
    (mbStep (mbStep (setChoiceIndex ⟨[("Yes", true), ("No", false)], 0⟩ 1) .left).1
        .enter).2
      = some (.selected
          (mbStep (setChoiceIndex ⟨[("Yes", true), ("No", false)], 0⟩ 1) .left).1) ∧
    (mbChoice
        (mbStep (setChoiceIndex ⟨[("Yes", true), ("No", false)], 0⟩ 1) .left).1).map
        Prod.snd
      = some true := by
  refine ⟨by decide, by decide, by decide, by decide⟩

/-! ## Timer (src/docker/saint/timer.py)

The timer owns at most one pending `call_later` handle of the asyncio event
loop; we model the loop's clock and that single handle explicitly.  Times
are exact numbers (`Nat`). -/

/-- A `Timer` plus its one pending event-loop handle:
`handle = some (t, cancelled)` is a `TimerHandle` scheduled for time `t`
(`cancelled` set by `.cancel()`); `none` is Python `None`.  `count` counts
callback invocations (the tasks `_tick` creates); `now` is the loop clock. -/
structure TimerState where
  stopped : Bool
  handle : Option (Nat × Bool)
  count : Nat
  now : Nat
  deriving DecidableEq, Repr

/-- `Timer.__init__`: `_stopped = True`, `_handle = None`. -/
def timerInit : TimerState := ⟨true, none, 0, 0⟩

/-- `Timer._enqueue`: if not stopped, schedule `_tick` `interval` later. -/
def enqueue (interval : Nat) (st : TimerState) : TimerState :=
  if st.stopped then st else { st with handle := some (st.now + interval, false) }

/-- `Timer._tick`: re-enqueue, then create a task running the callback. -/
def tick (interval : Nat) (st : TimerState) : TimerState :=
  let st1 := enqueue interval st
  { st1 with count := st1.count + 1 }

/-- `Timer.start`: no-op when already running; otherwise mark running, and
run `_tick` immediately unless a live (non-cancelled) handle exists. -/
def start (interval : Nat) (st : TimerState) : TimerState :=
  if ¬st.stopped then st
  else
    let st1 := { st with stopped := false }
    match st1.handle with
    | none => tick interval st1
    | some (_, true) => tick interval st1
    | some (_, false) => st1

/-- `Timer.stop`: `self._handle.cancel()` — an `AttributeError` (modelled as
`none`) when the handle is still `None` — then `_stopped = True`. -/
def stop (st : TimerState) : Option TimerState :=
  match st.handle with
  | none => none
  | some (t, _) => some { st with handle := some (t, true), stopped := true }

/-- The event loop firing the pending handle: advance the clock to its
deadline and run `_tick`.  A cancelled or absent handle never fires. -/
def fireNext (interval : Nat) (st : TimerState) : TimerState :=
  match st.handle with
  | some (t, false) => tick interval { st with now := t }
  | _ => st

/-- Run the event loop, firing pending handles whose deadline lies before
`stopTime` (the moment `stop()` is called); `fuel` bounds the number of
fired events and does not affect the result once the next deadline reaches
`stopTime`. -/
def runUntil (interval stopTime : Nat) : Nat → TimerState → TimerState
  | 0, st => st
  | fuel + 1, st =>
    match st.handle with
    | some (t, false) =>
      if t < stopTime then runUntil interval stopTime fuel (fireNext interval st)
      else st
    | _ => st

theorem runUntil_step (T S t c n f : Nat) (ht : t < S) :
    runUntil T S (f + 1) ⟨false, some (t, false), c, n⟩ =
      runUntil T S f ⟨false, some (t + T, false), c + 1, t⟩ := by
  simp [runUntil, fireNext, tick, enqueue, ht]

theorem runUntil_done (T S t c n fuel : Nat) (ht : ¬t < S) :
    runUntil T S fuel ⟨false, some (t, false), c, n⟩ =
      ⟨false, some (t, false), c, n⟩ := by
  cases fuel <;> simp [runUntil, ht]

/-- C7: a timer of interval `T ≥ 1` started (not running) at time 0 fires
immediately (`count = 1` right after `start`), then once per interval; when
`stop()` arrives at a time `S` with `4T < S < 5T` (≈ 4.5 T) the callback has
run exactly 5 times (one immediate + 4 periodic), the pending handle
(deadline `5T`) is cancelled, and no invocation happens afterwards (the
event loop leaves the stopped state unchanged). -/
theorem timer_fires_five_times (T S fuel : Nat) (hT : 1 ≤ T) (h4 : 4 * T < S)
    (h5 : S < 5 * T) (hfuel : 4 ≤ fuel) :
    (start T timerInit).count = 1 ∧
    runUntil T S fuel (start T timerInit) = ⟨false, some (5 * T, false), 5, 4 * T⟩ ∧
    stop (runUntil T S fuel (start T timerInit))
      = some ⟨true, some (5 * T, true), 5, 4 * T⟩ ∧
    fireNext T ⟨true, some (5 * T, true), 5, 4 * T⟩
      = ⟨true, some (5 * T, true), 5, 4 * T⟩ := by
  have hstart : start T timerInit = ⟨false, some (T, false), 1, 0⟩ := by
    simp [start, timerInit, tick, enqueue]
  have hrun : runUntil T S fuel (start T timerInit)
      = ⟨false, some (5 * T, false), 5, 4 * T⟩ := by
    obtain ⟨f, rfl⟩ : ∃ f, fuel = f + 1 + 1 + 1 + 1 := ⟨fuel - 4, by omega⟩
    rw [hstart]
    rw [runUntil_step T S T 1 0 _ (by omega)]
    rw [runUntil_step T S (T + T) 2 T _ (by omega)]
    rw [runUntil_step T S (T + T + T) 3 (T + T) _ (by omega)]
    rw [runUntil_step T S (T + T + T + T) 4 (T + T + T) _ (by omega)]
    have e5 : T + T + T + T + T = 5 * T := by ring
    have e4 : T + T + T + T = 4 * T := by ring
    rw [e5]
    rw [show (4 : Nat) + 1 = 5 from rfl]
    rw [runUntil_done T S (5 * T) 5 (T + T + T + T) f (by omega), e4]
  refine ⟨?_, hrun, ?_, ?_⟩
  · rw [hstart]
  · rw [hrun]
    rfl
  · rfl

/-- Witness for C7 at `T = 2`, `S = 9`, `fuel = 4`. -/
theorem timer_fires_five_times_witness :
    ((1 : Nat) ≤ 2 ∧ 4 * 2 < 9 ∧ 9 < 5 * 2 ∧ (4 : Nat) ≤ 4) ∧
      ((start 2 timerInit).count = 1 ∧
        runUntil 2 9 4 (start 2 timerInit) = ⟨false, some (5 * 2, false), 5, 4 * 2⟩ ∧
        stop (runUntil 2 9 4 (start 2 timerInit))
          = some ⟨true, some (5 * 2, true), 5, 4 * 2⟩ ∧
        fireNext 2 ⟨true, some (5 * 2, true), 5, 4 * 2⟩
          = ⟨true, some (5 * 2, true), 5, 4 * 2⟩) :=
  ⟨⟨by decide, by decide, by decide, by decide⟩,
    timer_fires_five_times 2 9 4 (by decide) (by decide) (by decide) (by decide)⟩

/-- C10: `stop()` on a timer that has never been started dereferences the
`None` handle and raises (`timerInit` has `handle = none`); whenever a
handle exists — as after any `start()` — `stop()` succeeds, cancels the
pending reschedule and marks the timer not-running. -/
theorem stop_before_start_errors :
    stop timerInit = none ∧
    ∀ (st : TimerState) (t : Nat) (c : Bool), st.handle = some (t, c) →
      stop st = some { st with handle := some (t, true), stopped := true } := by
  refine ⟨rfl, ?_⟩
  intro st t c h
  simp [stop, h]

/-- Witness for C10: the error case at the fresh timer, and the success case
at the state reached by `start 2 timerInit`. -/
theorem stop_before_start_errors_witness :
    stop timerInit = none ∧
      stop ⟨false, some (2, false), 1, 0⟩
        = some ⟨true, some (2, true), 1, 0⟩ :=
  ⟨stop_before_start_errors.1,
    stop_before_start_errors.2 ⟨false, some (2, false), 1, 0⟩ 2 false rfl⟩

/-! ## Widget input dispatch (src/docker/saint/widget.py, `on_input`) -/

/-- A keystroke: the optional key code (`key.code`) and the string form
(`str(key)`). -/
structure Key where
  code : Option Int
  s : String

/-- `key.code or str(key)`: the signal-table key `on_input` looks up; Python
`or` falls through when the code is falsy (`None` or `0`). -/
def effKey (k : Key) : Int ⊕ String :=
  match k.code with
  | some c => if c = 0 then Sum.inr k.s else Sum.inl c
  | none => Sum.inr k.s

/-- A widget as input dispatch sees it: for every signal-table key, the
list of results its handlers return when that signal is emitted (`emit`
runs all handlers and collects the results); the child list; and
`focus_index`. -/
inductive IW where
  | node (sigTable : Int ⊕ String → List Bool) (children : List IW) (focusIndex : Int)

def IW.sigTable : IW → (Int ⊕ String → List Bool)
  | .node o _ _ => o

def IW.childList : IW → List IW
  | .node _ cs _ => cs

def IW.focusIndex : IW → Int
  | .node _ _ fi => fi

/-- `Widget.focused_widget`: `widgets[focus_index]` when
`0 <= focus_index < len(widgets)`, else `None`. -/
def focusedWidget (cs : List IW) (fi : Int) : Option IW :=
  if h : 0 ≤ fi ∧ fi.toNat < cs.length then some (cs.get ⟨fi.toNat, h.2⟩) else none

theorem focusedWidget_mem (cs : List IW) (fi : Int) (c : IW)
    (h : focusedWidget cs fi = some c) : c ∈ cs := by
  unfold focusedWidget at h
  split_ifs at h with h'
  cases h
  exact List.get_mem cs _ _

/-- `Widget.on_input`: emit this widget's own signal for the key; if any
handler result is truthy, return `True`; otherwise delegate to the focused
child recursively, returning `False` when there is none. -/
def onInput (w : IW) (k : Key) : Bool :=
  match w with
  | .node o cs fi =>
    if (o (effKey k)).any (fun b => b) then true
    else
      match h : focusedWidget cs fi with
      | some c =>
        have : sizeOf c < 1 + sizeOf cs + sizeOf fi :=
          Nat.lt_of_lt_of_le (List.sizeOf_lt_of_mem (focusedWidget_mem cs fi c h))
            (by omega)
        onInput c k
      | none => false
termination_by sizeOf w

/-- C4: `on_input` first emits this widget's own signal registered for the
key (`key.code`, or `str(key)` when the code is falsy); if any handler
returned truthy, dispatch stops and `on_input` returns `true` regardless of
children; otherwise the key goes to the currently focused child recursively
(`on_input` returns whatever that chain returns), and `false` when no
handler consumed it and no focused child exists. -/
theorem on_input_dispatch (o : Int ⊕ String → List Bool) (cs : List IW)
    (fi : Int) (k : Key) :
    ((o (effKey k)).any (fun b => b) = true → onInput (.node o cs fi) k = true) ∧
    ((o (effKey k)).any (fun b => b) = false →
      ∀ c, focusedWidget cs fi = some c →
        onInput (.node o cs fi) k = onInput c k) ∧
    ((o (effKey k)).any (fun b => b) = false → focusedWidget cs fi = none →
      onInput (.node o cs fi) k = false) := by
  refine ⟨?_, ?_, ?_⟩
  · intro h
    rw [onInput]
    simp [h]
  · intro h c hc
    rw [onInput]
    simp only [h, Bool.false_eq_true, if_false]
    split
    · next c' heq =>
      rw [hc] at heq
      cases heq
      rfl
    · next heq => rw [hc] at heq; cases heq
  · intro h hc
    rw [onInput]
    simp only [h, Bool.false_eq_true, if_false]
    split
    · next c' heq => rw [hc] at heq; cases heq
    · rfl

/-- Witness for C4: a widget with one truthy handler consumes the key; a
widget with no handlers and a focused child delegates; one with neither
handlers nor children returns `false`. -/
theorem on_input_dispatch_witness :
    (((fun _ => [true]) (effKey ⟨some 1, "x"⟩)).any (fun b => b) = true ∧
      onInput (.node (fun _ => [true]) [] 0) ⟨some 1, "x"⟩ = true) ∧
    (((fun _ => ([] : List Bool)) (effKey ⟨some 1, "x"⟩)).any (fun b => b) = false ∧
      focusedWidget [IW.node (fun _ => [true]) [] 0] 0
        = some (IW.node (fun _ => [true]) [] 0) ∧
      onInput (.node (fun _ => []) [IW.node (fun _ => [true]) [] 0] 0) ⟨some 1, "x"⟩
        = onInput (IW.node (fun _ => [true]) [] 0) ⟨some 1, "x"⟩) ∧
    (((fun _ => ([] : List Bool)) (effKey ⟨some 1, "x"⟩)).any (fun b => b) = false ∧
      focusedWidget [] 0 = none ∧
      onInput (.node (fun _ => []) [] 0) ⟨some 1, "x"⟩ = false) :=
  ⟨⟨rfl, (on_input_dispatch (fun _ => [true]) [] 0 ⟨some 1, "x"⟩).1 rfl⟩,
    ⟨rfl, by simp [focusedWidget],
      (on_input_dispatch (fun _ => []) [IW.node (fun _ => [true]) [] 0] 0
          ⟨some 1, "x"⟩).2.1 rfl _ (by simp [focusedWidget])⟩,
    ⟨rfl, by simp [focusedWidget],
      (on_input_dispatch (fun _ => []) [] 0 ⟨some 1, "x"⟩).2.2 rfl
        (by simp [focusedWidget])⟩⟩

end Saint
